import Mathlib

/-!  Verification of the shareable-card-link codec of the ONEPAGE client.

The embedded code is the share-link machinery of the application root
component: `compressAndEncode`, `toUrlSafeBase64`, `fromUrlSafeBase64`,
`decodeAndDecompress`, the page-load handler `initializeApp`, and the two
share actions `createAndShareLink` and `handleCopyShareLink`, together
with the data model from the type declarations (`BusinessCardData`,
`ThemeColors`, `Media`, `ContactInfo`, `SocialLink`, `CareerEntry`).

Platform primitives are handled as follows:
* gzip compression/decompression (`CompressionStream`/`DecompressionStream`)
  is a parameter pair `(gzip, gunzip)`; theorems that need its lossless
  contract take that contract as a hypothesis.
* `JSON.parse` is a parameter `parse`; theorems that need its contract
  (inverse of serialization on well-formed documents) take it as a
  hypothesis.
* base64 is modelled concretely: encoding as produced by
  `FileReader.readAsDataURL` (standard padded base64), decoding as
  performed by `fetch` of a `data:` URL (WHATWG forgiving-base64).
* `JSON.stringify` is modelled concretely by a renderer over a JSON value
  type, with object keys in the insertion order of the serialized objects.

Failure (`Option.none`) stands for a rejected promise or a thrown
exception at the corresponding stage; the surrounding handlers treat every
such failure through a single catch-all, which is the `MalformedShareLink`
failure mode of the specification.
-/

namespace OnePage

/-! Base64, as used by the codec.  The encode side models the base64 body
of the data URL produced by `FileReader.readAsDataURL`; the decode side
models the forgiving-base64 algorithm that `fetch` applies to the body of
a `data:` URL. -/

/-- The standard base64 alphabet, by index (0..63). -/
def base64Char (n : Nat) : Char :=
  if n < 26 then Char.ofNat (65 + n)
  else if n < 52 then Char.ofNat (97 + (n - 26))
  else if n < 62 then Char.ofNat (48 + (n - 52))
  else if n = 62 then '+'
  else '/'

/-- Value of a base64 alphabet character; `none` outside the alphabet. -/
def b64val (c : Char) : Option Nat :=
  if 'A' ≤ c ∧ c ≤ 'Z' then some (c.toNat - 65)
  else if 'a' ≤ c ∧ c ≤ 'z' then some (c.toNat - 97 + 26)
  else if '0' ≤ c ∧ c ≤ '9' then some (c.toNat - 48 + 52)
  else if c = '+' then some 62
  else if c = '/' then some 63
  else none

/-- Standard padded base64 of a byte list (bytes are Nats below 256). -/
def base64EncodeCore : List Nat → List Char
  | [] => []
  | [a] => [base64Char (a / 4), base64Char (a % 4 * 16), '=', '=']
  | [a, b] => [base64Char (a / 4), base64Char (a % 4 * 16 + b / 16),
               base64Char (b % 16 * 4), '=']
  | a :: b :: c :: rest =>
      base64Char (a / 4) :: base64Char (a % 4 * 16 + b / 16) ::
      base64Char (b % 16 * 4 + c / 64) :: base64Char (c % 64) ::
      base64EncodeCore rest

def base64Encode (bs : List Nat) : String := String.mk (base64EncodeCore bs)

/-- ASCII whitespace, removed by forgiving-base64. -/
def isAsciiWs (c : Char) : Bool :=
  c = ' ' || c = '\t' || c = '\n' || c = Char.ofNat 12 || c = '\r'

/-- Remove one or two leading `=` (applied to the reversed character
list, this is the removal of up to two trailing pads). -/
def stripPads : List Char → List Char
  | '=' :: '=' :: r => r
  | '=' :: r => r
  | r => r

/-- Forgiving-base64 step: if the length is a multiple of 4, drop up to
two trailing `=` characters. -/
def dropPad (cs : List Char) : List Char :=
  if cs.length % 4 = 0 then (stripPads cs.reverse).reverse else cs

/-- Map every character to its 6-bit value; fail on the first character
outside the alphabet. -/
def charsToSextets : List Char → Option (List Nat)
  | [] => some []
  | c :: r =>
    match b64val c, charsToSextets r with
    | some v, some vs => some (v :: vs)
    | _, _ => none

/-- Reassemble bytes from 6-bit values; trailing bits of a final group of
two or three sextets are discarded, as in forgiving-base64 (a leftover
single sextet cannot occur: it is rejected earlier). -/
def sextetsToBytes : List Nat → List Nat
  | a :: b :: c :: d :: rest =>
      (a * 4 + b / 16) :: (b % 16 * 16 + c / 4) :: (c % 4 * 64 + d) ::
      sextetsToBytes rest
  | [a, b] => [a * 4 + b / 16]
  | [a, b, c] => [a * 4 + b / 16, b % 16 * 16 + c / 4]
  | _ => []

/-- WHATWG forgiving-base64 decode, the algorithm `fetch` applies to the
base64 body of a `data:` URL.  `none` is the rejection of the fetch
promise. -/
def forgivingBase64Decode (s : String) : Option (List Nat) :=
  if (dropPad (s.data.filter (fun c => !isAsciiWs c))).length % 4 = 1 then none
  else
    match charsToSextets (dropPad (s.data.filter (fun c => !isAsciiWs c))) with
    | some sx => some (sextetsToBytes sx)
    | none => none

/-- The 6-bit values of the encoder output, without padding (auxiliary
decomposition of `base64EncodeCore`). -/
def encSextets : List Nat → List Nat
  | [] => []
  | [a] => [a / 4, a % 4 * 16]
  | [a, b] => [a / 4, a % 4 * 16 + b / 16, b % 16 * 4]
  | a :: b :: c :: rest =>
      a / 4 :: (a % 4 * 16 + b / 16) :: (b % 16 * 4 + c / 64) :: (c % 64) ::
      encSextets rest

/-- Number of `=` pads the encoder appends. -/
def padLen : List Nat → Nat
  | [] => 0
  | [_] => 2
  | [_, _] => 1
  | _ :: _ :: _ :: rest => padLen rest

/-! The URL-safe alphabet transform of the codec. -/

/-- Model of `String.replace` with a one-character pattern and a
one-character replacement. -/
def replaceAll (a b : Char) (cs : List Char) : List Char :=
  cs.map (fun c => if c = a then b else c)

/-- Model of `.replace(/=/g, '')`. -/
def removeEq (cs : List Char) : List Char := cs.filter (fun c => c != '=')

/-- Model of `toUrlSafeBase64`: `+`→`-`, `/`→`_`, strip `=`. -/
def toUrlSafeBase64 (s : String) : String :=
  String.mk (removeEq (replaceAll '/' '_' (replaceAll '+' '-' s.data)))

/-- The padding while-loop of `fromUrlSafeBase64`: append `=` until the
length is a multiple of 4. -/
def padTo4 (cs : List Char) : List Char :=
  if cs.length % 4 = 0 then cs else padTo4 (cs ++ ['='])
termination_by (4 - cs.length % 4) % 4
decreasing_by
  simp [List.length_append]
  omega

/-- Model of `fromUrlSafeBase64`: `-`→`+`, `_`→`/`, re-pad with `=`. -/
def fromUrlSafeBase64 (s : String) : String :=
  String.mk (padTo4 (replaceAll '_' '/' (replaceAll '-' '+' s.data)))

/-! JSON values and a model of `JSON.stringify`. -/

inductive JValue where
  | null
  | bool (b : Bool)
  | num (n : Int)
  | str (s : String)
  | arr (elems : List JValue)
  | obj (fields : List (String × JValue))

def hexDigit (n : Nat) : Char :=
  if n < 10 then Char.ofNat (48 + n) else Char.ofNat (87 + n)

/-- String-escaping of `JSON.stringify`. -/
def escapeChar (c : Char) : List Char :=
  if c = '"' then ['\\', '"']
  else if c = '\\' then ['\\', '\\']
  else if c = Char.ofNat 8 then ['\\', 'b']
  else if c = Char.ofNat 12 then ['\\', 'f']
  else if c = '\n' then ['\\', 'n']
  else if c = '\r' then ['\\', 'r']
  else if c = '\t' then ['\\', 't']
  else if c.toNat < 32 then
    ['\\', 'u', '0', '0', hexDigit (c.toNat / 16), hexDigit (c.toNat % 16)]
  else [c]

def renderString (s : String) : String :=
  String.mk ('"' :: (s.data.flatMap escapeChar ++ ['"']))

mutual

/-- Model of `JSON.stringify` on a JSON value (no spacing argument). -/
def render : JValue → String
  | .null => "null"
  | .bool true => "true"
  | .bool false => "false"
  | .num n => toString n
  | .str s => renderString s
  | .arr es => "[" ++ renderArr es ++ "]"
  | .obj fs => "\x7b" ++ renderObj fs ++ "\x7d"

def renderArr : List JValue → String
  | [] => ""
  | [v] => render v
  | v :: rest => render v ++ "," ++ renderArr rest

def renderObj : List (String × JValue) → String
  | [] => ""
  | [(k, v)] => renderString k ++ ":" ++ render v
  | (k, v) :: rest => renderString k ++ ":" ++ render v ++ "," ++ renderObj rest

end

/-! Data model, from the application type declarations.  Numeric fields
are modelled as integers; none of the verified properties computes with
them. -/

structure Media where
  src : String
  aspectRatio : Int

structure ContactInfo where
  id : String
  type : String
  value : String

structure SocialLink where
  id : String
  platform : String
  url : String

structure CareerEntry where
  id : String
  title : String
  company : String
  startDate : String
  endDate : String
  description : String

structure ThemeColors where
  background : String
  text : String
  primary : String
  accent : String

structure BusinessCardData where
  bannerImage : Media
  profilePicture : Media
  name : String
  title : String
  company : String
  bio : String
  contactInfo : List ContactInfo
  socialLinks : List SocialLink
  careerHistory : List CareerEntry
  fontFamily : String
  nameFontSize : Int
  nameFontWeight : Int
  nameFontColor : String
  titleFontSize : Int
  titleFontWeight : Int
  titleFontColor : String
  companyFontSize : Int
  companyFontWeight : Int
  companyFontColor : String
  baseFontSize : Int
  baseFontWeight : Int
  baseFontColor : String
  layout : String

def Media.toJson (m : Media) : JValue :=
  .obj [("src", .str m.src), ("aspectRatio", .num m.aspectRatio)]

def ContactInfo.toJson (c : ContactInfo) : JValue :=
  .obj [("id", .str c.id), ("type", .str c.type), ("value", .str c.value)]

def SocialLink.toJson (l : SocialLink) : JValue :=
  .obj [("id", .str l.id), ("platform", .str l.platform), ("url", .str l.url)]

def CareerEntry.toJson (e : CareerEntry) : JValue :=
  .obj [("id", .str e.id), ("title", .str e.title), ("company", .str e.company),
        ("startDate", .str e.startDate), ("endDate", .str e.endDate),
        ("description", .str e.description)]

def ThemeColors.toJson (t : ThemeColors) : JValue :=
  .obj [("background", .str t.background), ("text", .str t.text),
        ("primary", .str t.primary), ("accent", .str t.accent)]

/-- The object `createAndShareLink` serializes: the reduced projection
built inline as `simplifiedData`, keys in the order of the object
literal. -/
def simplifiedData (cardData : BusinessCardData) (theme : ThemeColors) : JValue :=
  .obj [("cardData", .obj
          [("name", .str cardData.name),
           ("title", .str cardData.title),
           ("company", .str cardData.company),
           ("bio", .str cardData.bio),
           ("contactInfo", .arr (cardData.contactInfo.map ContactInfo.toJson)),
           ("socialLinks", .arr (cardData.socialLinks.map SocialLink.toJson)),
           ("careerHistory", .arr (cardData.careerHistory.map CareerEntry.toJson))]),
        ("theme", theme.toJson)]

/-- The full card as a JSON object, keys in the construction order of
`getDefaultCardData`.  No field of `BusinessCardData` is dropped. -/
def fullCardJson (c : BusinessCardData) : JValue :=
  .obj [("bannerImage", c.bannerImage.toJson),
        ("profilePicture", c.profilePicture.toJson),
        ("name", .str c.name),
        ("title", .str c.title),
        ("company", .str c.company),
        ("bio", .str c.bio),
        ("contactInfo", .arr (c.contactInfo.map ContactInfo.toJson)),
        ("socialLinks", .arr (c.socialLinks.map SocialLink.toJson)),
        ("careerHistory", .arr (c.careerHistory.map CareerEntry.toJson)),
        ("fontFamily", .str c.fontFamily),
        ("nameFontSize", .num c.nameFontSize),
        ("nameFontWeight", .num c.nameFontWeight),
        ("nameFontColor", .str c.nameFontColor),
        ("titleFontSize", .num c.titleFontSize),
        ("titleFontWeight", .num c.titleFontWeight),
        ("titleFontColor", .str c.titleFontColor),
        ("companyFontSize", .num c.companyFontSize),
        ("companyFontWeight", .num c.companyFontWeight),
        ("companyFontColor", .str c.companyFontColor),
        ("baseFontSize", .num c.baseFontSize),
        ("baseFontWeight", .num c.baseFontWeight),
        ("baseFontColor", .str c.baseFontColor),
        ("layout", .str c.layout)]

/-- The object `handleCopyShareLink` serializes: its `dataToShare` with
the complete card data, media fields included. -/
def fullShareData (cardData : BusinessCardData) (theme : ThemeColors) : JValue :=
  .obj [("cardData", fullCardJson cardData), ("theme", theme.toJson)]

/-! The codec pipeline. -/

/-- Model of `compressAndEncode`: JSON-serialize, gzip, then standard
base64 (`FileReader.readAsDataURL` of the compressed blob, body of the
data URL). -/
def compressAndEncode (gzip : String → List Nat) (data : JValue) : String :=
  base64Encode (gzip (render data))

/-- Model of `decodeAndDecompress`: base64-decode via `fetch` of a
`data:` URL (forgiving-base64), gunzip, then `JSON.parse`.  `none` is a
rejected promise or a thrown exception at the corresponding stage. -/
def decodeAndDecompress (gunzip : List Nat → Option String)
    (parse : String → Option JValue) (base64 : String) : Option JValue :=
  match forgivingBase64Decode base64 with
  | none => none
  | some bytes =>
    match gunzip bytes with
    | none => none
    | some text => parse text

/-- The encode side of the share-link codec:
`toUrlSafeBase64(compressAndEncode(data))`. -/
def encodeToken (gzip : String → List Nat) (data : JValue) : String :=
  toUrlSafeBase64 (compressAndEncode gzip data)

/-- The decode side as run by `initializeApp`:
`decodeAndDecompress(fromUrlSafeBase64(token))`. -/
def decodeToken (gunzip : List Nat → Option String)
    (parse : String → Option JValue) (token : String) : Option JValue :=
  decodeAndDecompress gunzip parse (fromUrlSafeBase64 token)

/-! The page-load handler. -/

/-- JavaScript truthiness of a decoded JSON value (objects and arrays are
always truthy; `null`, `false`, `0` and the empty string are falsy). -/
def truthy : JValue → Bool
  | .null => false
  | .bool b => b
  | .num n => n != 0
  | .str s => s != ""
  | .arr _ => true
  | .obj _ => true

def lookupField : List (String × JValue) → String → Option JValue
  | [], _ => none
  | (k, v) :: rest, key => if k = key then some v else lookupField rest key

/-- Property access `v[k]` on a decoded value; `none` is JavaScript
`undefined` (falsy). -/
def getProp (v : JValue) (k : String) : Option JValue :=
  match v with
  | .obj fs => lookupField fs k
  | _ => none

def truthyProp (v : JValue) (k : String) : Bool :=
  match getProp v k with
  | some w => truthy w
  | none => false

/-- Field `k` of the `cardData` member of a share payload. -/
def getCardField (v : JValue) (k : String) : Option JValue :=
  match getProp v "cardData" with
  | some o => getProp o k
  | none => none

def cardDataHasKey (v : JValue) (k : String) : Bool := (getCardField v k).isSome

/-- Observable outcome of the `card`-parameter branch of `initializeApp`:
whether `setReceivedCard` ran, whether the invalid-link alert was shown,
and whether `history.replaceState` rewrote the address to drop the
parameter. -/
structure InitOutcome where
  receivedCard : Option JValue
  alertShown : Bool
  urlCleaned : Bool

/-- The `card`-parameter handling of `initializeApp`: decode the token,
check `data.cardData && data.theme`, set the received card on success; on
any failure (decode error, or the structure check throwing) the single
catch shows the alert and cleans the URL. -/
def initializeApp (gunzip : List Nat → Option String)
    (parse : String → Option JValue) : Option String → InitOutcome
  | none => ⟨none, false, false⟩
  | some tok =>
    match decodeToken gunzip parse tok with
    | some data =>
      if truthyProp data "cardData" && truthyProp data "theme" then ⟨some data, false, false⟩
      else ⟨none, true, true⟩
    | none => ⟨none, true, true⟩

/-! The two share actions. -/

/-- What a share action hands to the share facility: either the Web Share
API payload (title, text, url) or the text written to the clipboard. -/
inductive ShareAction where
  | nav (title text url : String)
  | clip (text : String)

def assembleUrl (baseUrl token : String) : String := baseUrl ++ "?card=" ++ token

/-- The fallback share text of `createAndShareLink` (`cardName ? ... : ...`). -/
def fallbackShareText (c : BusinessCardData) : String :=
  if c.name != "" then c.name ++ "의 디지털 명함을 확인해보세요!"
  else "디지털 명함을 확인해보세요!"

/-- The `url` variable of `createAndShareLink`: base URL plus the encoded
simplified payload. -/
def shareUrl (gzip : String → List Nat) (baseUrl : String)
    (cardData : BusinessCardData) (theme : ThemeColors) : String :=
  assembleUrl baseUrl (toUrlSafeBase64 (compressAndEncode gzip (simplifiedData cardData theme)))

/-- Model of `createAndShareLink`: encode the simplified payload, assemble
the URL, and fall back to a short text plus the bare base URL when the URL
exceeds 2000 characters.  `canShare` abstracts the Web Share API
availability check. -/
def createAndShareLink (gzip : String → List Nat) (baseUrl : String) (canShare : Bool)
    (cardData : BusinessCardData) (theme : ThemeColors) : ShareAction :=
  if (shareUrl gzip baseUrl cardData theme).length > 2000 then
    if canShare then ShareAction.nav "디지털 명함" (fallbackShareText cardData) baseUrl
    else ShareAction.clip (fallbackShareText cardData ++ " " ++ baseUrl)
  else
    if canShare then
      ShareAction.nav
        (if cardData.name != "" then cardData.name ++ "'s Business Card"
         else "Digital Business Card")
        (if cardData.name != "" then "Check out " ++ cardData.name ++ "'s digital business card."
         else "Check out my digital business card.")
        (shareUrl gzip baseUrl cardData theme)
    else ShareAction.clip (shareUrl gzip baseUrl cardData theme)

/-- Model of `handleCopyShareLink`: encode the full `dataToShare` and copy
the assembled URL to the clipboard; the returned string is what is copied.
There is no length check on this path. -/
def handleCopyShareLink (gzip : String → List Nat) (baseUrl : String)
    (cardData : BusinessCardData) (theme : ThemeColors) : String :=
  assembleUrl baseUrl (toUrlSafeBase64 (compressAndEncode gzip (fullShareData cardData theme)))

/-! Concrete data for the closed instantiations. -/

def sampleTheme : ThemeColors :=
  ⟨"#F9FAFB", "#374151", "#1F2937", "#E5E7EB"⟩

def sampleCard : BusinessCardData where
  bannerImage := ⟨"banner-data", 1⟩
  profilePicture := ⟨"picture-data", 1⟩
  name := "Jane Doe"
  title := "Engineer"
  company := "Acme"
  bio := "Builds things."
  contactInfo := [⟨"id1", "email", "jane@acme.com"⟩]
  socialLinks := []
  careerHistory := []
  fontFamily := "system-ui, sans-serif"
  nameFontSize := 28
  nameFontWeight := 700
  nameFontColor := "#1F2937"
  titleFontSize := 16
  titleFontWeight := 500
  titleFontColor := "#374151"
  companyFontSize := 18
  companyFontWeight := 600
  companyFontColor := "#1F2937"
  baseFontSize := 14
  baseFontWeight := 400
  baseFontColor := "#374151"
  layout := "classic"

/-- A decoded value whose `cardData` and `theme` members are truthy but
structurally meaningless. -/
def sampleReceived : JValue := .obj [("cardData", .num 7), ("theme", .bool true)]

/-- A base URL longer than the sharing threshold. -/
def longBase : String := String.mk (List.replicate 2001 'a')

/-- A gunzip that fails on the bytes of the token `AAAA` and otherwise
yields text that is not JSON. -/
def cexGunzip : List Nat → Option String :=
  fun bs => if bs = [0, 0, 0] then none else some "not json"

/-- A parse that rejects everything (models `JSON.parse` on non-JSON
text). -/
def cexParse : String → Option JValue := fun _ => none

/-! Lemmas about the base64 layer. -/

theorem b64val_base64Char_fin : ∀ n : Fin 64, b64val (base64Char n.val) = some n.val := by
  decide

theorem b64val_base64Char {n : Nat} (h : n < 64) : b64val (base64Char n) = some n :=
  b64val_base64Char_fin ⟨n, h⟩

theorem base64Char_ne_eq_fin : ∀ n : Fin 64, base64Char n.val ≠ '=' := by decide

theorem base64Char_ne_eq {n : Nat} (h : n < 64) : base64Char n ≠ '=' :=
  base64Char_ne_eq_fin ⟨n, h⟩

theorem base64Char_not_ws_fin : ∀ n : Fin 64, isAsciiWs (base64Char n.val) = false := by
  decide

theorem base64Char_not_ws {n : Nat} (h : n < 64) : isAsciiWs (base64Char n) = false :=
  base64Char_not_ws_fin ⟨n, h⟩

theorem encodeCore_decomp (bs : List Nat) :
    base64EncodeCore bs = (encSextets bs).map base64Char ++ List.replicate (padLen bs) '=' := by
  induction bs using base64EncodeCore.induct with
  | case1 => simp [base64EncodeCore, encSextets, padLen]
  | case2 a => simp [base64EncodeCore, encSextets, padLen, List.replicate]
  | case3 a b => simp [base64EncodeCore, encSextets, padLen, List.replicate]
  | case4 a b c rest ih => simp [base64EncodeCore, encSextets, padLen, ih]

theorem padLen_le (bs : List Nat) : padLen bs ≤ 2 := by
  induction bs using padLen.induct <;> simp_all [padLen]

theorem encSextets_lt (bs : List Nat) (h : ∀ b ∈ bs, b < 256) :
    ∀ s ∈ encSextets bs, s < 64 := by
  induction bs using encSextets.induct with
  | case1 => simp [encSextets]
  | case2 a =>
      simp only [encSextets, List.mem_cons, List.not_mem_nil, or_false]
      have := h a (by simp)
      rintro s (rfl | rfl) <;> omega
  | case3 a b =>
      simp only [encSextets, List.mem_cons, List.not_mem_nil, or_false]
      have ha := h a (by simp)
      have hb := h b (by simp)
      rintro s (rfl | rfl | rfl) <;> omega
  | case4 a b c rest ih =>
      simp only [encSextets, List.mem_cons]
      have ha := h a (by simp)
      have hb := h b (by simp)
      have hc := h c (by simp)
      have ih' := ih (fun x hx => h x (by simp [hx]))
      rintro s (rfl | rfl | rfl | rfl | hs)
      · omega
      · omega
      · omega
      · omega
      · exact ih' s hs

theorem encSextets_len_mod (bs : List Nat) :
    (encSextets bs).length % 4 = 0 ∨ (encSextets bs).length % 4 = 2 ∨
    (encSextets bs).length % 4 = 3 := by
  induction bs using encSextets.induct with
  | case1 => simp [encSextets]
  | case2 a => simp [encSextets]
  | case3 a b => simp [encSextets]
  | case4 a b c rest ih => simp [encSextets, Nat.add_mod]; omega

theorem encSextets_padLen_mod (bs : List Nat) :
    ((encSextets bs).length + padLen bs) % 4 = 0 := by
  induction bs using encSextets.induct with
  | case1 => simp [encSextets, padLen]
  | case2 a => simp [encSextets, padLen]
  | case3 a b => simp [encSextets, padLen]
  | case4 a b c rest ih => simp [encSextets, padLen, Nat.add_mod] at ih ⊢; omega

theorem stripPads_two (r : List Char) : stripPads ('=' :: '=' :: r) = r := rfl

theorem stripPads_one {c : Char} (h : c ≠ '=') (t : List Char) :
    stripPads ('=' :: c :: t) = c :: t := by
  unfold stripPads
  split
  · rename_i heq; injection heq with h1 h2; injection h2 with h2 _; exact absurd h2 h
  · rename_i heq; injection heq with _ h2; exact h2.symm
  · rename_i hno2 hno1; exact absurd rfl (hno1 (c :: t))

theorem stripPads_single : stripPads ['='] = [] := rfl

theorem stripPads_nil : stripPads [] = [] := rfl

theorem stripPads_nopad {c : Char} (h : c ≠ '=') (t : List Char) :
    stripPads (c :: t) = c :: t := by
  unfold stripPads
  split
  · rename_i heq; injection heq with h1 _; exact absurd h1 h
  · rename_i heq; injection heq with h1 _; exact absurd h1 h
  · rfl

theorem dropPad_append_pads (l : List Char) (k : Nat) (hl : ∀ c ∈ l, c ≠ '=')
    (hk : k ≤ 2) (hlen : (l.length + k) % 4 = 0) :
    dropPad (l ++ List.replicate k '=') = l := by
  unfold dropPad
  rw [if_pos (by simp [hlen])]
  interval_cases k
  · rw [List.replicate_zero, List.append_nil]
    rcases hrev : l.reverse with _ | ⟨c, r⟩
    · have hnil : l = [] := by simpa using congrArg List.reverse hrev
      simp [hnil, stripPads_nil]
    · have hc : c ∈ l := by
        have hm : c ∈ l.reverse := by rw [hrev]; simp
        simpa using hm
      rw [stripPads_nopad (hl c hc) r, ← hrev]
      simp
  · rw [show List.replicate 1 '=' = ['='] from rfl, List.reverse_append,
      show (['='] : List Char).reverse = ['='] from rfl]
    rcases hrev : l.reverse with _ | ⟨c, r⟩
    · have hnil : l = [] := by simpa using congrArg List.reverse hrev
      subst hnil
      simp at hlen
    · have hc : c ∈ l := by
        have hm : c ∈ l.reverse := by rw [hrev]; simp
        simpa using hm
      rw [List.cons_append, List.nil_append, stripPads_one (hl c hc) r, ← hrev]
      simp
  · rw [show List.replicate 2 '=' = ['=', '='] from rfl, List.reverse_append,
      show (['=', '='] : List Char).reverse = ['=', '='] from rfl]
    rw [List.cons_append, List.cons_append, List.nil_append, stripPads_two,
      List.reverse_reverse]

theorem charsToSextets_map (l : List Nat) (h : ∀ s ∈ l, s < 64) :
    charsToSextets (l.map base64Char) = some l := by
  induction l with
  | nil => rfl
  | cons a t ih =>
      simp only [List.map_cons, charsToSextets]
      rw [b64val_base64Char (h a (by simp)), ih (fun s hs => h s (by simp [hs]))]

theorem sextetsToBytes_encSextets (bs : List Nat) (h : ∀ b ∈ bs, b < 256) :
    sextetsToBytes (encSextets bs) = bs := by
  induction bs using encSextets.induct with
  | case1 => rfl
  | case2 a =>
      have ha := h a (by simp)
      simp only [encSextets, sextetsToBytes, List.cons.injEq, and_true]
      omega
  | case3 a b =>
      have ha := h a (by simp)
      have hb := h b (by simp)
      simp only [encSextets, sextetsToBytes, List.cons.injEq, and_true]
      constructor
      · omega
      · omega
  | case4 a b c rest ih =>
      have ha := h a (by simp)
      have hb := h b (by simp)
      have hc := h c (by simp)
      have ih' := ih (fun x hx => h x (by simp [hx]))
      simp only [encSextets, sextetsToBytes, List.cons.injEq]
      refine ⟨?_, ?_, ?_, ih'⟩ <;> omega

theorem encodeCore_filter_ws (bs : List Nat) (h : ∀ b ∈ bs, b < 256) :
    (base64EncodeCore bs).filter (fun c => !isAsciiWs c) = base64EncodeCore bs := by
  rw [List.filter_eq_self]
  intro c hc
  rw [encodeCore_decomp] at hc
  rcases List.mem_append.mp hc with hm | hp
  · obtain ⟨s, hs, rfl⟩ := List.mem_map.mp hm
    rw [base64Char_not_ws (encSextets_lt bs h s hs)]
    rfl
  · have hceq : c = '=' := List.eq_of_mem_replicate hp
    subst hceq
    decide

/-- Forgiving-base64 inverts the encoder on every byte list. -/
theorem forgiving_decode_encode (bs : List Nat) (h : ∀ b ∈ bs, b < 256) :
    forgivingBase64Decode (base64Encode bs) = some bs := by
  have hdata : (base64Encode bs).data = base64EncodeCore bs := rfl
  have hdp : dropPad ((base64Encode bs).data.filter (fun c => !isAsciiWs c)) =
      (encSextets bs).map base64Char := by
    rw [hdata, encodeCore_filter_ws bs h, encodeCore_decomp]
    exact dropPad_append_pads _ _
      (by
        intro c hc
        obtain ⟨s, hs, rfl⟩ := List.mem_map.mp hc
        exact base64Char_ne_eq (encSextets_lt bs h s hs))
      (padLen_le bs)
      (by rw [List.length_map]; exact encSextets_padLen_mod bs)
  unfold forgivingBase64Decode
  rw [hdp]
  rw [if_neg (by rw [List.length_map]; rcases encSextets_len_mod bs with h1 | h1 | h1 <;> omega)]
  rw [charsToSextets_map _ (encSextets_lt bs h)]
  show some (sextetsToBytes (encSextets bs)) = some bs
  rw [sextetsToBytes_encSextets bs h]

/-! Lemmas about the URL-safe transform. -/

theorem padTo4_spec (cs : List Char) :
    padTo4 cs = cs ++ List.replicate ((4 - cs.length % 4) % 4) '=' := by
  induction cs using padTo4.induct with
  | case1 cs h =>
      unfold padTo4
      rw [if_pos h, h]
      simp
  | case2 cs h ih =>
      have hlen : (cs ++ ['=']).length = cs.length + 1 := by simp
      have hk : (4 - cs.length % 4) % 4 = (4 - (cs.length + 1) % 4) % 4 + 1 := by omega
      unfold padTo4
      rw [if_neg h, ih, hlen, List.append_assoc, hk, List.replicate_succ]
      rfl

theorem b64_char_facts {c : Char} (h : (b64val c).isSome) :
    c ≠ '-' ∧ c ≠ '_' ∧ c ≠ '=' := by
  refine ⟨?_, ?_, ?_⟩ <;> rintro rfl
  · rw [show b64val '-' = none from rfl] at h; simp at h
  · rw [show b64val '_' = none from rfl] at h; simp at h
  · rw [show b64val '=' = none from rfl] at h; simp at h

theorem string_length_mk (l : List Char) : (String.mk l).length = l.length := rfl

theorem replaceAll_length (a b : Char) (cs : List Char) :
    (replaceAll a b cs).length = cs.length := by
  simp [replaceAll]

/-- Stripping `=` from the URL-safe transform of a base64 core followed by
pads leaves exactly the transformed core. -/
theorem removeEq_enc (core : List Char) (k : Nat)
    (hcore : ∀ c ∈ core, (b64val c).isSome) :
    removeEq (replaceAll '/' '_' (replaceAll '+' '-' (core ++ List.replicate k '='))) =
      replaceAll '/' '_' (replaceAll '+' '-' core) := by
  unfold replaceAll removeEq
  rw [List.map_append, List.map_append, List.filter_append]
  have hpads : List.filter (fun c => c != '=')
      (List.map (fun c => if c = '/' then '_' else c)
        (List.map (fun c => if c = '+' then '-' else c) (List.replicate k '='))) = [] := by
    simp [List.map_replicate]
  have hcorepass : List.filter (fun c => c != '=')
      (List.map (fun c => if c = '/' then '_' else c)
        (List.map (fun c => if c = '+' then '-' else c) core)) =
      List.map (fun c => if c = '/' then '_' else c)
        (List.map (fun c => if c = '+' then '-' else c) core) := by
    rw [List.filter_eq_self]
    intro a ha
    simp only [List.mem_map] at ha
    obtain ⟨b, ⟨c, hc, rfl⟩, rfl⟩ := ha
    obtain ⟨h1, h2, h3⟩ := b64_char_facts (hcore c hc)
    by_cases hp : c = '+'
    · subst hp; decide
    · by_cases hs : c = '/'
      · subst hs; decide
      · simp [hp, hs, h3]
  rw [hpads, hcorepass, List.append_nil]

/-- Round trip of the URL-safe transform on a standard base64 character
list: a run of alphabet characters followed by at most two `=` pads, with
total length a multiple of four. -/
theorem urlsafe_roundtrip_chars (core : List Char) (k : Nat)
    (hcore : ∀ c ∈ core, (b64val c).isSome) (hk : k ≤ 2)
    (hlen : (core.length + k) % 4 = 0) :
    padTo4 (replaceAll '_' '/' (replaceAll '-' '+'
      (removeEq (replaceAll '/' '_' (replaceAll '+' '-' (core ++ List.replicate k '=')))))) =
      core ++ List.replicate k '=' := by
  rw [removeEq_enc core k hcore]
  have hdec : replaceAll '_' '/' (replaceAll '-' '+'
      (replaceAll '/' '_' (replaceAll '+' '-' core))) = core := by
    unfold replaceAll
    rw [List.map_map, List.map_map, List.map_map]
    have hpt : ∀ c ∈ core,
        ((fun c => if c = '_' then '/' else c) ∘ (fun c => if c = '-' then '+' else c) ∘
         (fun c => if c = '/' then '_' else c) ∘ (fun c => if c = '+' then '-' else c)) c = c := by
      intro c hc
      obtain ⟨h1, h2, h3⟩ := b64_char_facts (hcore c hc)
      by_cases hp : c = '+'
      · subst hp; decide
      · by_cases hs : c = '/'
        · subst hs; decide
        · simp [Function.comp, hp, hs, h1, h2]
    calc List.map _ core = List.map id core := List.map_congr_left hpt
    _ = core := List.map_id core
  rw [hdec]
  rw [padTo4_spec]
  congr 1
  congr 1
  omega

/-- The URL-safe round trip on the encoder's own output. -/
theorem urlsafe_roundtrip_base64 (bs : List Nat) (h : ∀ b ∈ bs, b < 256) :
    fromUrlSafeBase64 (toUrlSafeBase64 (base64Encode bs)) = base64Encode bs := by
  have hcore : ∀ c ∈ (encSextets bs).map base64Char, (b64val c).isSome := by
    intro c hc
    obtain ⟨s, hs, rfl⟩ := List.mem_map.mp hc
    rw [b64val_base64Char (encSextets_lt bs h s hs)]
    rfl
  show String.mk (padTo4 (replaceAll '_' '/' (replaceAll '-' '+'
      (removeEq (replaceAll '/' '_' (replaceAll '+' '-' (base64EncodeCore bs))))))) = _
  rw [encodeCore_decomp,
    urlsafe_roundtrip_chars _ _ hcore (padLen_le bs)
      (by rw [List.length_map]; exact encSextets_padLen_mod bs)]
  rw [base64Encode, encodeCore_decomp]

/-- Closed form of `fromUrlSafeBase64`, used to evaluate it on concrete
tokens (the padding loop is defined by well-founded recursion). -/
theorem fromUrlSafeBase64_eval (s : String) :
    fromUrlSafeBase64 s = String.mk (replaceAll '_' '/' (replaceAll '-' '+' s.data) ++
      List.replicate ((4 - s.data.length % 4) % 4) '=') := by
  unfold fromUrlSafeBase64
  rw [padTo4_spec, replaceAll_length, replaceAll_length]

/-- Characters of any `toUrlSafeBase64` output. -/
theorem toUrlSafe_chars (s : String) :
    ∀ c ∈ (toUrlSafeBase64 s).data, c ≠ '+' ∧ c ≠ '/' ∧ c ≠ '=' := by
  intro c hc
  have hc' : c ∈ removeEq (replaceAll '/' '_' (replaceAll '+' '-' s.data)) := hc
  unfold removeEq replaceAll at hc'
  rw [List.mem_filter] at hc'
  obtain ⟨hmem, hne⟩ := hc'
  obtain ⟨b, hb, rfl⟩ := List.mem_map.mp hmem
  obtain ⟨a, _, rfl⟩ := List.mem_map.mp hb
  refine ⟨?_, ?_, by simpa using hne⟩
  · by_cases h1 : a = '+'
    · subst h1; decide
    · by_cases h2 : a = '/'
      · subst h2; decide
      · rw [if_neg h1, if_neg h2]; exact h1
  · by_cases h1 : a = '+'
    · subst h1; decide
    · by_cases h2 : a = '/'
      · subst h2; decide
      · rw [if_neg h1, if_neg h2]; exact h2

theorem longBase_length : longBase.length = 2001 := by
  rw [longBase, string_length_mk, List.length_replicate]

theorem emptyGzip_url_length (baseUrl : String) (data : JValue) :
    (assembleUrl baseUrl (toUrlSafeBase64 (compressAndEncode (fun _ => []) data))).length =
      baseUrl.length + 6 := by
  rw [show toUrlSafeBase64 (compressAndEncode (fun _ => []) data) = "" from rfl]
  show ((baseUrl ++ "?card=") ++ "").length = baseUrl.length + 6
  rw [String.length_append, String.length_append,
    show ("?card=" : String).length = 6 from rfl, show ("" : String).length = 0 from rfl]

/-! The claims. -/

/-- Claim C1: for every well-formed `ShareableCardPayload` (a card
projection plus theme), decoding the token produced by encoding it —
`decodeAndDecompress` after `fromUrlSafeBase64`, applied to
`toUrlSafeBase64(compressAndEncode(p))` — yields a payload deep-equal to
the original (equality of `JValue` is deep structural equality).  The
gzip pair and `JSON.parse` are platform primitives; their documented
lossless/inverse contracts at this payload are hypotheses. -/
theorem shareLink_roundtrip (gzip : String → List Nat) (gunzip : List Nat → Option String)
    (parse : String → Option JValue) (cardData : BusinessCardData) (theme : ThemeColors)
    (hbytes : ∀ b ∈ gzip (render (simplifiedData cardData theme)), b < 256)
    (hzip : gunzip (gzip (render (simplifiedData cardData theme))) =
      some (render (simplifiedData cardData theme)))
    (hparse : parse (render (simplifiedData cardData theme)) =
      some (simplifiedData cardData theme)) :
    decodeToken gunzip parse (encodeToken gzip (simplifiedData cardData theme)) =
      some (simplifiedData cardData theme) := by
  unfold decodeToken encodeToken compressAndEncode decodeAndDecompress
  rw [urlsafe_roundtrip_base64 _ hbytes]
  rw [forgiving_decode_encode _ hbytes]
  show (match gunzip (gzip (render (simplifiedData cardData theme))) with
        | none => none
        | some text => parse text) = some (simplifiedData cardData theme)
  rw [hzip]
  exact hparse

/-- Witness for C1 at a concrete card, with a gzip pair and parse
satisfying the contracts at that payload. -/
theorem shareLink_roundtrip_witness :
    decodeToken (fun _ => some (render (simplifiedData sampleCard sampleTheme)))
      (fun _ => some (simplifiedData sampleCard sampleTheme))
      (encodeToken (fun _ => []) (simplifiedData sampleCard sampleTheme)) =
      some (simplifiedData sampleCard sampleTheme) :=
  shareLink_roundtrip (fun _ => []) _ _ sampleCard sampleTheme
    (by intro b hb; simp at hb) rfl rfl

/-- Claim C2, counterexample: the payload `handleCopyShareLink` serializes
into its share-link token does contain the binary media fields
`profilePicture` and `bannerImage` — the claimed invariant fails for that
share-link-producing operation. -/
theorem share_media_cex :
    cardDataHasKey (fullShareData sampleCard sampleTheme) "profilePicture" = true ∧
    cardDataHasKey (fullShareData sampleCard sampleTheme) "bannerImage" = true :=
  ⟨rfl, rfl⟩

/-- Claim C2, amended: for every card, the payload `createAndShareLink`
serializes omits `profilePicture` and `bannerImage`, but the payload
`handleCopyShareLink` serializes includes both media fields. -/
theorem share_media_fields (cardData : BusinessCardData) (theme : ThemeColors) :
    cardDataHasKey (simplifiedData cardData theme) "profilePicture" = false ∧
    cardDataHasKey (simplifiedData cardData theme) "bannerImage" = false ∧
    cardDataHasKey (fullShareData cardData theme) "profilePicture" = true ∧
    cardDataHasKey (fullShareData cardData theme) "bannerImage" = true :=
  ⟨rfl, rfl, rfl, rfl⟩

/-- Claim C3, counterexample: `handleCopyShareLink` performs no length
check; with a base URL of 2001 characters it copies an assembled URL of
2007 characters — longer than the 2000-character threshold and not the
bare base URL. -/
theorem length_fallback_cex :
    2000 < (handleCopyShareLink (fun _ => []) longBase sampleCard sampleTheme).length ∧
    handleCopyShareLink (fun _ => []) longBase sampleCard sampleTheme ≠ longBase := by
  have hlen : (handleCopyShareLink (fun _ => []) longBase sampleCard sampleTheme).length = 2007 := by
    show (assembleUrl longBase (toUrlSafeBase64 (compressAndEncode (fun _ => [])
      (fullShareData sampleCard sampleTheme)))).length = 2007
    rw [emptyGzip_url_length, longBase_length]
  refine ⟨by omega, fun h => ?_⟩
  have hc := congrArg String.length h
  rw [hlen, longBase_length] at hc
  omega

/-- Claim C3, amended: when the assembled URL exceeds 2000 characters,
`createAndShareLink` does not share the long URL and instead shares the
short message together with the bare base URL (without the token), via
the share sheet or the clipboard; `handleCopyShareLink`, however, applies
no length fallback and copies the full assembled URL unconditionally. -/
theorem length_fallback_policy (gzip : String → List Nat) (baseUrl : String)
    (cardData : BusinessCardData) (theme : ThemeColors)
    (h : (shareUrl gzip baseUrl cardData theme).length > 2000) :
    (∀ canShare, createAndShareLink gzip baseUrl canShare cardData theme =
      if canShare then ShareAction.nav "디지털 명함" (fallbackShareText cardData) baseUrl
      else ShareAction.clip (fallbackShareText cardData ++ " " ++ baseUrl)) ∧
    handleCopyShareLink gzip baseUrl cardData theme =
      assembleUrl baseUrl (encodeToken gzip (fullShareData cardData theme)) := by
  refine ⟨fun canShare => ?_, rfl⟩
  unfold createAndShareLink
  rw [if_pos h]

/-- Witness for C3 (amended) on a URL over the threshold. -/
theorem length_fallback_policy_witness :
    createAndShareLink (fun _ => []) longBase true sampleCard sampleTheme =
      ShareAction.nav "디지털 명함" (fallbackShareText sampleCard) longBase :=
  (length_fallback_policy (fun _ => []) longBase sampleCard sampleTheme
    (by unfold shareUrl; rw [emptyGzip_url_length, longBase_length]; omega)).1 true

/-- Claim C4: for a token whose base64 body is invalid (corrupted or with
characters outside the alphabet), a token whose bytes are not a valid
gzip stream, and a token that decodes and decompresses but whose text
does not parse, `decodeAndDecompress ∘ fromUrlSafeBase64` fails with the
single failure mode `none` (the `MalformedShareLink` rejection); the
function is total, so no other error escapes. -/
theorem malformed_token_rejection (gunzip : List Nat → Option String)
    (parse : String → Option JValue) (t1 t2 t3 : String)
    (h1 : forgivingBase64Decode (fromUrlSafeBase64 t1) = none)
    (h2 : ∀ bs, forgivingBase64Decode (fromUrlSafeBase64 t2) = some bs → gunzip bs = none)
    (h3 : ∀ bs text, forgivingBase64Decode (fromUrlSafeBase64 t3) = some bs →
      gunzip bs = some text → parse text = none) :
    decodeToken gunzip parse t1 = none ∧ decodeToken gunzip parse t2 = none ∧
    decodeToken gunzip parse t3 = none := by
  unfold decodeToken decodeAndDecompress
  refine ⟨?_, ?_, ?_⟩
  · rw [h1]
  · rcases hfb : forgivingBase64Decode (fromUrlSafeBase64 t2) with _ | bs
    · rfl
    · show (match gunzip bs with
        | none => none
        | some text => parse text) = none
      rw [h2 bs hfb]
  · rcases hfb : forgivingBase64Decode (fromUrlSafeBase64 t3) with _ | bs
    · rfl
    · show (match gunzip bs with
        | none => none
        | some text => parse text) = none
      rcases hgz : gunzip bs with _ | text
      · rfl
      · exact h3 bs text hfb hgz

/-- Witness for C4: `ab!d` has an invalid base64 character, `AAAA`
decodes to bytes the gunzip rejects, `BBBB` decompresses to text the
parse rejects. -/
theorem malformed_token_rejection_witness :
    decodeToken cexGunzip cexParse "ab!d" = none ∧
    decodeToken cexGunzip cexParse "AAAA" = none ∧
    decodeToken cexGunzip cexParse "BBBB" = none :=
  malformed_token_rejection cexGunzip cexParse "ab!d" "AAAA" "BBBB"
    (by rw [fromUrlSafeBase64_eval]; rfl)
    (by
      intro bs hbs
      rw [fromUrlSafeBase64_eval] at hbs
      have heval : forgivingBase64Decode (String.mk
          (replaceAll '_' '/' (replaceAll '-' '+' "AAAA".data) ++
            List.replicate ((4 - "AAAA".data.length % 4) % 4) '=')) = some [0, 0, 0] := rfl
      rw [heval] at hbs
      injection hbs with hbs
      subst hbs
      rfl)
    (fun _ _ _ _ => rfl)

/-- Claim C5: for every token whose decode fails, `initializeApp` shows
the invalid-link notice, rewrites the address to drop the `card`
parameter, and never sets the received card. -/
theorem decode_failure_cleanup (gunzip : List Nat → Option String)
    (parse : String → Option JValue) (tok : String)
    (hfail : decodeToken gunzip parse tok = none) :
    initializeApp gunzip parse (some tok) = ⟨none, true, true⟩ := by
  simp only [initializeApp, hfail]

/-- Witness for C5 on a concrete failing token. -/
theorem decode_failure_cleanup_witness :
    initializeApp (fun _ => none) (fun _ => none) (some "!bad") = ⟨none, true, true⟩ :=
  decode_failure_cleanup _ _ "!bad"
    (by unfold decodeToken decodeAndDecompress; rw [fromUrlSafeBase64_eval]; rfl)

/-- Claim C6: for every valid standard base64 string — alphabet
characters followed by at most two `=` pads, total length a multiple of
four — `fromUrlSafeBase64 (toUrlSafeBase64 b) = b`: the decode-side
transform exactly inverts the encode-side transform. -/
theorem urlsafe_base64_roundtrip (b : String) (core : List Char) (k : Nat)
    (hdecomp : b.data = core ++ List.replicate k '=')
    (hcore : ∀ c ∈ core, (b64val c).isSome)
    (hk : k ≤ 2) (hlen : b.length % 4 = 0) :
    fromUrlSafeBase64 (toUrlSafeBase64 b) = b := by
  have hb : b = String.mk (core ++ List.replicate k '=') := by
    cases b with
    | mk data => exact congrArg String.mk hdecomp
  rw [hb] at hlen ⊢
  rw [string_length_mk] at hlen
  simp only [List.length_append, List.length_replicate] at hlen
  show String.mk (padTo4 (replaceAll '_' '/' (replaceAll '-' '+'
      (removeEq (replaceAll '/' '_' (replaceAll '+' '-'
        (core ++ List.replicate k '='))))))) = _
  rw [urlsafe_roundtrip_chars core k hcore hk hlen]

/-- Witness for C6 on a concrete padded base64 string. -/
theorem urlsafe_base64_roundtrip_witness :
    fromUrlSafeBase64 (toUrlSafeBase64 "QQ==") = "QQ==" :=
  urlsafe_base64_roundtrip "QQ==" ['Q', 'Q'] 2 rfl (by decide) (by decide) rfl

/-- Claim C7: for every payload, the token produced by the encode side
(`toUrlSafeBase64` applied to the base64 encoding) contains none of the
characters `+`, `/` or `=`. -/
theorem token_urlsafe_chars (gzip : String → List Nat)
    (cardData : BusinessCardData) (theme : ThemeColors) :
    '+' ∉ (encodeToken gzip (simplifiedData cardData theme)).data ∧
    '/' ∉ (encodeToken gzip (simplifiedData cardData theme)).data ∧
    '=' ∉ (encodeToken gzip (simplifiedData cardData theme)).data := by
  refine ⟨fun hm => ?_, fun hm => ?_, fun hm => ?_⟩
  · exact (toUrlSafe_chars _ _ hm).1 rfl
  · exact (toUrlSafe_chars _ _ hm).2.1 rfl
  · exact (toUrlSafe_chars _ _ hm).2.2 rfl

/-- Witness for C7 on a concrete payload and compressor. -/
theorem token_urlsafe_chars_witness :
    '+' ∉ (encodeToken (fun _ => [1]) (simplifiedData sampleCard sampleTheme)).data ∧
    '/' ∉ (encodeToken (fun _ => [1]) (simplifiedData sampleCard sampleTheme)).data ∧
    '=' ∉ (encodeToken (fun _ => [1]) (simplifiedData sampleCard sampleTheme)).data :=
  token_urlsafe_chars (fun _ => [1]) sampleCard sampleTheme

/-- Claim C8, counterexample: the payloads of the two sharing paths are
not of the same shape — the copy path's payload has a `fontFamily` field
the simplified path's payload lacks. -/
theorem share_paths_cex :
    cardDataHasKey (fullShareData sampleCard sampleTheme) "fontFamily" = true ∧
    cardDataHasKey (simplifiedData sampleCard sampleTheme) "fontFamily" = false :=
  ⟨rfl, rfl⟩

/-- Claim C8, amended: the two sharing paths agree, with equal values, on
the seven reduced card fields and on the theme, but the copy path's
payload additionally contains every media and typography field of the
full card, so the paths differ in payload shape as well as in the
length-fallback decision. -/
theorem share_paths_payload_relation (cardData : BusinessCardData) (theme : ThemeColors) :
    (getCardField (simplifiedData cardData theme) "name" =
       getCardField (fullShareData cardData theme) "name" ∧
     getCardField (simplifiedData cardData theme) "title" =
       getCardField (fullShareData cardData theme) "title" ∧
     getCardField (simplifiedData cardData theme) "company" =
       getCardField (fullShareData cardData theme) "company" ∧
     getCardField (simplifiedData cardData theme) "bio" =
       getCardField (fullShareData cardData theme) "bio" ∧
     getCardField (simplifiedData cardData theme) "contactInfo" =
       getCardField (fullShareData cardData theme) "contactInfo" ∧
     getCardField (simplifiedData cardData theme) "socialLinks" =
       getCardField (fullShareData cardData theme) "socialLinks" ∧
     getCardField (simplifiedData cardData theme) "careerHistory" =
       getCardField (fullShareData cardData theme) "careerHistory" ∧
     getProp (simplifiedData cardData theme) "theme" =
       getProp (fullShareData cardData theme) "theme") ∧
    (["bannerImage", "profilePicture", "fontFamily", "nameFontSize", "nameFontWeight",
      "nameFontColor", "titleFontSize", "titleFontWeight", "titleFontColor",
      "companyFontSize", "companyFontWeight", "companyFontColor", "baseFontSize",
      "baseFontWeight", "baseFontColor", "layout"].all
      (fun k => cardDataHasKey (fullShareData cardData theme) k &&
        !cardDataHasKey (simplifiedData cardData theme) k) = true) :=
  ⟨⟨rfl, rfl, rfl, rfl, rfl, rfl, rfl, rfl⟩, rfl⟩

/-- Claim C9: whenever the decode of the `card` parameter yields a value
whose `cardData` and `theme` members are truthy, `initializeApp` presents
it as the received card — no validation of the inner structure of either
member is performed. -/
theorem decode_structural_check_shallow (gunzip : List Nat → Option String)
    (parse : String → Option JValue) (tok : String) (data : JValue)
    (hdec : decodeToken gunzip parse tok = some data)
    (hcard : truthyProp data "cardData" = true)
    (htheme : truthyProp data "theme" = true) :
    initializeApp gunzip parse (some tok) = ⟨some data, false, false⟩ := by
  simp only [initializeApp, hdec, hcard, htheme]
  rfl

/-- Witness for C9: a decoded value whose `cardData` is the number 7 and
whose `theme` is the boolean true is accepted as a received card. -/
theorem decode_structural_check_shallow_witness :
    initializeApp (fun _ => some "") (fun _ => some sampleReceived) (some "AAAA") =
      ⟨some sampleReceived, false, false⟩ :=
  decode_structural_check_shallow _ _ "AAAA" sampleReceived
    (by unfold decodeToken decodeAndDecompress; rw [fromUrlSafeBase64_eval]; rfl)
    rfl rfl

/-- Claim C10: `fromUrlSafeBase64` terminates on every input (it is a
total function whose padding loop appends at most three `=`), its output
length is a multiple of four, an input of length congruent to 1 mod 4
receives exactly three `=`, and no token produced by `toUrlSafeBase64`
from an encoder output has that shape. -/
theorem fromUrlSafe_padding_behavior (s : String) :
    (fromUrlSafeBase64 s).data =
      replaceAll '_' '/' (replaceAll '-' '+' s.data) ++
        List.replicate ((4 - s.length % 4) % 4) '=' ∧
    (4 - s.length % 4) % 4 ≤ 3 ∧
    (fromUrlSafeBase64 s).length % 4 = 0 ∧
    (s.length % 4 = 1 →
      (fromUrlSafeBase64 s).data =
        replaceAll '_' '/' (replaceAll '-' '+' s.data) ++ ['=', '=', '=']) ∧
    ∀ bs : List Nat, (∀ b ∈ bs, b < 256) →
      (toUrlSafeBase64 (base64Encode bs)).length % 4 ≠ 1 := by
  have hdata : (fromUrlSafeBase64 s).data =
      replaceAll '_' '/' (replaceAll '-' '+' s.data) ++
        List.replicate ((4 - s.length % 4) % 4) '=' := by
    rw [fromUrlSafeBase64_eval]
    rfl
  have hlen2 : (fromUrlSafeBase64 s).length = s.length + (4 - s.length % 4) % 4 := by
    show (fromUrlSafeBase64 s).data.length = _
    rw [hdata, List.length_append, List.length_replicate, replaceAll_length, replaceAll_length]
    rfl
  refine ⟨hdata, by omega, by rw [hlen2]; omega, fun h1 => ?_, fun bs hbs => ?_⟩
  · rw [hdata, h1]
    rfl
  · have hdat : (toUrlSafeBase64 (base64Encode bs)).data =
        replaceAll '/' '_' (replaceAll '+' '-' ((encSextets bs).map base64Char)) := by
      show removeEq (replaceAll '/' '_' (replaceAll '+' '-' (base64EncodeCore bs))) = _
      rw [encodeCore_decomp, removeEq_enc]
      intro c hc
      obtain ⟨v, hv, rfl⟩ := List.mem_map.mp hc
      rw [b64val_base64Char (encSextets_lt bs hbs v hv)]
      rfl
    have hlen3 : (toUrlSafeBase64 (base64Encode bs)).length = (encSextets bs).length := by
      show (toUrlSafeBase64 (base64Encode bs)).data.length = _
      rw [hdat, replaceAll_length, replaceAll_length, List.length_map]
    rw [hlen3]
    rcases encSextets_len_mod bs with h | h | h <;> omega

/-- Witness for C10 at a string of length 5 (≡ 1 mod 4) and a one-byte
encoder output. -/
theorem fromUrlSafe_padding_behavior_witness :
    (fromUrlSafeBase64 "abcde").data =
      replaceAll '_' '/' (replaceAll '-' '+' "abcde".data) ++ ['=', '=', '='] ∧
    (toUrlSafeBase64 (base64Encode [0])).length % 4 ≠ 1 :=
  ⟨(fromUrlSafe_padding_behavior "abcde").2.2.2.1 rfl,
   (fromUrlSafe_padding_behavior "abcde").2.2.2.2 [0] (by decide)⟩

end OnePage
